import Mathlib

/-!
Shallow embedding of the mankan nutrition scraper's checkpoint/resume +
incremental-write pipeline (src/src/checkpoint.py, src/src/data_processor.py,
src/src/incremental_writer.py, src/src/skipped_logger.py,
src/src/scraper_fast.py, src/scripts/retry_skipped.py), with theorems
settling the specification claims about it.

Python scalar values are modelled by the inductive type `PyVal`
(strings, None, booleans and finite numbers; numbers are embedded as
rationals, so non-finite floats are outside the model). Python dicts
are modelled as association lists whose lookup takes the first binding,
matching dict semantics when keys are unique. Unicode digit classes of
the `re` module are modelled as ASCII digits.
-/

namespace Mankan

/-- A Python scalar value as it occurs in scraped row dictionaries. -/
inductive PyVal where
  | none : PyVal
  | str (s : String) : PyVal
  | bool (b : Bool) : PyVal
  | num (q : ℚ) : PyVal
  deriving DecidableEq, Repr

/-- A row dictionary (Python `Dict[str, Any]` restricted to scalar values). -/
abbrev Row := List (String × PyVal)

/-- Python dict read `row.get(k)` / `row[k]`: first binding of the key. -/
def dictGet (k : String) (row : Row) : Option PyVal :=
  (row.find? (fun p => p.1 = k)).map Prod.snd

/-- Python truthiness for the modelled scalar values. -/
def truthy : PyVal → Bool
  | .none => false
  | .str s => s ≠ ""
  | .bool b => b
  | .num q => q ≠ 0

/-- Python whitespace characters stripped by `str.strip()`. -/
def isPySpace (c : Char) : Bool :=
  c = ' ' ∨ c = '\t' ∨ c = '\n' ∨ c = '\r' ∨ c = '\x0b' ∨ c = '\x0c'

/-- Leading/trailing whitespace removal on the character list. -/
def stripChars (l : List Char) : List Char :=
  (((l.dropWhile isPySpace).reverse.dropWhile isPySpace)).reverse

/-- Python `str.strip()`. -/
def pyStrip (s : String) : String :=
  ⟨stripChars s.data⟩

/-- Python `str(value)` for the modelled scalar values (numbers are given a
canonical textual form via `Repr ℚ`; only its stripping behaviour matters
in the theorems below). -/
def pyStr : PyVal → String
  | .none => "None"
  | .str s => s
  | .bool b => if b then "True" else "False"
  | .num q => toString (repr q)

/-- Numeric value of a list of ASCII digits, as a natural number. -/
def digitsNat (l : List Char) : ℕ :=
  l.foldl (fun a c => 10 * a + (c.toNat - Char.toNat '0')) 0

/-- Numeric value of a list of ASCII digits. -/
def digitsVal (l : List Char) : ℚ :=
  (digitsNat l : ℚ)

/-- Value of the fractional digit block `fs` of a literal `x.fs`. -/
def fracVal (l : List Char) : ℚ :=
  digitsVal l / (10 : ℚ) ^ l.length

/-- Parse an unsigned float literal made of digits and at most one dot,
as accepted by Python `float()` after sign removal: at least one digit,
forms `d+`, `d+.d*` or `.d+`. -/
def parseUnsigned (l : List Char) : Option ℚ :=
  match l.span (fun c => c.isDigit) with
  | (ds, []) => if ds = [] then Option.none else Option.some (digitsVal ds)
  | (ds, c :: fs) =>
      if c = '.' ∧ fs.all (fun c => c.isDigit) ∧ (ds ≠ [] ∨ fs ≠ []) then
        Option.some (digitsVal ds + fracVal fs)
      else
        Option.none

/-- Parse a float literal with an optional leading minus sign (the only sign
that survives the scraper's character filter). -/
def parseSigned (l : List Char) : Option ℚ :=
  match l with
  | '-' :: rest => (parseUnsigned rest).map Neg.neg
  | _ => parseUnsigned l

/-- Python `float(value)` on the modelled scalars: booleans become 0/1,
numbers pass through, `None` raises (`Option.none`), and strings are parsed
as float literals after stripping whitespace and an optional plus sign.
(Non-finite literals such as inf/nan are outside the rational model.) -/
def pyFloat : PyVal → Option ℚ
  | .none => Option.none
  | .bool b => Option.some (if b then 1 else 0)
  | .num q => Option.some q
  | .str s =>
      match (pyStrip s).data with
      | '+' :: rest => parseUnsigned rest
      | l => parseSigned l

/-- Python `int(value)`: truncation toward zero for numbers, 0/1 for
booleans, digit-string parsing (optional sign, digits only) for strings,
and failure for `None`. -/
def pyInt : PyVal → Option ℤ
  | .none => Option.none
  | .bool b => Option.some (if b then 1 else 0)
  | .num q => Option.some (if 0 ≤ q then ⌊q⌋ else ⌈q⌉)
  | .str s =>
      let t := (pyStrip s).data
      let core := match t with
        | '+' :: rest => Option.some (rest, (1 : ℤ))
        | '-' :: rest => Option.some (rest, (-1 : ℤ))
        | l => Option.some (l, (1 : ℤ))
      match core with
      | Option.some (ds, sign) =>
          if ds ≠ [] ∧ ds.all (fun c => c.isDigit) then
            Option.some (sign * (digitsNat ds : ℤ))
          else
            Option.none
      | Option.none => Option.none

/-- `DataProcessor.REQUIRED_FIELDS`. -/
def REQUIRED_FIELDS : List String := ["food_name", "measurement_unit", "food_id"]

/-- `DataProcessor.NUMERIC_FIELDS`. -/
def NUMERIC_FIELDS : List String :=
  ["calories", "fat_g", "protein_g", "carbs_g", "fiber_g", "sugar_g", "salt_g",
   "measurement_value"]

/-- The text fields stripped by `DataProcessor.clean_data`. -/
def TEXT_FIELDS : List String := ["food_name", "measurement_unit"]

/-- The character class kept by the scraper's numeric filter
`re.sub(r'[^\\d.-]', '', value)`: digits, dot and minus. -/
def numFilterChar (c : Char) : Bool :=
  c.isDigit ∨ c = '.' ∨ c = '-'

/-- The per-key value transformation performed by `DataProcessor.clean_data`
(src/src/data_processor.py lines 96-135): text fields are stripped when
truthy; numeric fields are normalised to a float or `None`, extracting the
numeric part of strings via the filter `re.sub(r'[^\d.-]', '', value)`;
`food_id` is coerced to int when possible. -/
def cleanValue (k : String) (v : PyVal) : PyVal :=
  if k ∈ TEXT_FIELDS then
    (if truthy v then .str (pyStrip (pyStr v)) else v)
  else if k ∈ NUMERIC_FIELDS then
    (if v = .none ∨ v = .str "" then .none
     else
       match v with
       | .str s =>
           let filtered := s.data.filter numFilterChar
           if filtered = [] then .none
           else
             match parseSigned filtered with
             | Option.some q => .num q
             | Option.none => .none
       | .bool b => .num (if b then 1 else 0)
       | .num q => .num q
       | .none => .none)
  else if k = "food_id" then
    (match pyInt v with
     | Option.some n => .num (n : ℚ)
     | Option.none => v)
  else
    v

/-- `DataProcessor.clean_data`: per-key update of the row dictionary. -/
def clean_data (row : Row) : Row :=
  row.map (fun p => (p.1, cleanValue p.1 p.2))

/-- The required-field check of `DataProcessor.validate_row` (lines 46-48):
each required field must be present, not `None` and not the empty string. -/
def requiredOk (row : Row) : Bool :=
  REQUIRED_FIELDS.all (fun f =>
    match dictGet f row with
    | Option.some v => v ≠ .none ∧ v ≠ .str ""
    | Option.none => false)

/-- The numeric-field check of `DataProcessor.validate_row` (lines 51-68):
a present, non-`None`, non-empty-string numeric field must convert with
`float()`, and must be non-negative unless it is `measurement_value`. -/
def numericFieldOk (row : Row) (f : String) : Bool :=
  match dictGet f row with
  | Option.none => true
  | Option.some .none => true
  | Option.some v =>
      if v = .str "" then true
      else
        match pyFloat v with
        | Option.some q => f = "measurement_value" ∨ 0 ≤ q
        | Option.none => false

/-- The food-id check of `DataProcessor.validate_row` (lines 71-77):
a present `food_id` must convert with `int()`. -/
def foodIdOk (row : Row) : Bool :=
  match dictGet "food_id" row with
  | Option.none => true
  | Option.some v => (pyInt v).isSome

/-- `DataProcessor.validate_row`: true iff no validation error is recorded. -/
def validate_row (row : Row) : Bool :=
  requiredOk row ∧ NUMERIC_FIELDS.all (numericFieldOk row) ∧ foodIdOk row

/-- `DataProcessor.process_batch`: clean every row, keep those that validate. -/
def process_batch (rows : List Row) : List Row :=
  rows.filterMap (fun r =>
    let c := clean_data r
    if validate_row c then Option.some c else Option.none)

/-! ### Lemmas about whitespace stripping -/

theorem dropWhile_head_not (p : Char → Bool) :
    ∀ (l : List Char) (c : Char) (t : List Char),
      l.dropWhile p = c :: t → p c = false := by
  intro l
  induction l with
  | nil => intro c t h; simp [List.dropWhile] at h
  | cons a l ih =>
      intro c t h
      rw [List.dropWhile_cons] at h
      by_cases hp : p a = true
      · exact ih c t (by simpa [hp] using h)
      · simp [hp] at h
        simp [← h.1]
        simpa using hp

theorem dropWhile_eq_self_of_head (p : Char → Bool) (c : Char) (t : List Char)
    (h : p c = false) : (c :: t).dropWhile p = c :: t := by
  simp [List.dropWhile_cons, h]

theorem dropWhile_idem (p : Char → Bool) (l : List Char) :
    (l.dropWhile p).dropWhile p = l.dropWhile p := by
  cases h : l.dropWhile p with
  | nil => simp
  | cons c t => exact dropWhile_eq_self_of_head p c t (dropWhile_head_not p l c t h)

theorem stripChars_idem (l : List Char) : stripChars (stripChars l) = stripChars l := by
  unfold stripChars
  obtain ⟨x, hx⟩ := List.dropWhile_suffix (l := (l.dropWhile isPySpace).reverse) isPySpace
  set A := l.dropWhile isPySpace with hA
  set B := A.reverse.dropWhile isPySpace with hB
  have hAx : A = B.reverse ++ x.reverse := by
    have := congrArg List.reverse hx
    simpa [List.reverse_append] using this.symm
  have h1 : B.reverse.dropWhile isPySpace = B.reverse := by
    cases hBr : B.reverse with
    | nil => simp
    | cons c t =>
        apply dropWhile_eq_self_of_head
        have hAc : A = c :: (t ++ x.reverse) := by rw [hAx, hBr]; simp
        exact dropWhile_head_not isPySpace l c (t ++ x.reverse) (hA.symm.trans hAc)
  rw [h1, List.reverse_reverse]
  rw [dropWhile_idem]

theorem pyStrip_idem (s : String) : pyStrip (pyStrip s) = pyStrip s := by
  simp [pyStrip, stripChars_idem]

/-! ### Branch lemmas for `cleanValue` -/

theorem cleanValue_text (k : String) (hk : k ∈ TEXT_FIELDS) (v : PyVal) :
    cleanValue k v = if truthy v then .str (pyStrip (pyStr v)) else v := by
  simp [cleanValue, hk]

theorem cleanValue_numeric_shape (k : String) (h1 : k ∉ TEXT_FIELDS)
    (h2 : k ∈ NUMERIC_FIELDS) (v : PyVal) :
    cleanValue k v = .none ∨ ∃ q : ℚ, cleanValue k v = .num q := by
  simp only [cleanValue, if_neg h1, if_pos h2]
  by_cases h : v = PyVal.none ∨ v = PyVal.str ""
  · rw [if_pos h]; left; rfl
  · rw [if_neg h]
    cases v with
    | none => left; rfl
    | bool b => right; exact ⟨if b then 1 else 0, rfl⟩
    | num q => right; exact ⟨q, rfl⟩
    | str s =>
        cases hf : s.data.filter numFilterChar with
        | nil => left; simp [hf]
        | cons c t =>
            cases hp : parseSigned (c :: t) with
            | none => left; simp [hf, hp]
            | some q => right; exact ⟨q, by simp [hf, hp]⟩

theorem cleanValue_numeric_none (k : String) (h1 : k ∉ TEXT_FIELDS)
    (h2 : k ∈ NUMERIC_FIELDS) : cleanValue k PyVal.none = .none := by
  simp [cleanValue, h1, h2]

theorem cleanValue_numeric_num (k : String) (h1 : k ∉ TEXT_FIELDS)
    (h2 : k ∈ NUMERIC_FIELDS) (q : ℚ) : cleanValue k (.num q) = .num q := by
  simp [cleanValue, h1, h2]

theorem cleanValue_food_id (v : PyVal) :
    cleanValue "food_id" v =
      match pyInt v with
      | Option.some n => .num (n : ℚ)
      | Option.none => v := by
  have h1 : "food_id" ∉ TEXT_FIELDS := by decide
  have h2 : "food_id" ∉ NUMERIC_FIELDS := by decide
  simp [cleanValue, h1, h2]

theorem pyInt_intCast (n : ℤ) : pyInt (.num (n : ℚ)) = Option.some n := by
  simp only [pyInt]
  by_cases h0 : (0 : ℚ) ≤ (n : ℚ)
  · simp [h0, Int.floor_intCast]
  · simp [h0, Int.ceil_intCast]

theorem cleanValue_idem (k : String) (v : PyVal) :
    cleanValue k (cleanValue k v) = cleanValue k v := by
  by_cases ht : k ∈ TEXT_FIELDS
  · have e1 := cleanValue_text k ht v
    by_cases htr : truthy v = true
    · rw [if_pos htr] at e1
      rw [e1, cleanValue_text k ht]
      by_cases hne : pyStrip (pyStr v) = ""
      · rw [if_neg (by simp [truthy, hne])]
      · rw [if_pos (by simp [truthy, hne])]
        simp [pyStr, pyStrip_idem]
    · rw [if_neg htr] at e1
      rw [e1, e1]
  · by_cases hn : k ∈ NUMERIC_FIELDS
    · rcases cleanValue_numeric_shape k ht hn v with h | ⟨q, h⟩
      · rw [h]; exact cleanValue_numeric_none k ht hn
      · rw [h]; exact cleanValue_numeric_num k ht hn q
    · by_cases hf : k = "food_id"
      · subst hf
        rw [cleanValue_food_id v]
        cases hi : pyInt v with
        | none => simp [cleanValue_food_id, hi]
        | some n => simp [cleanValue_food_id, pyInt_intCast]
      · simp [cleanValue, ht, hn, hf]

theorem dictGet_clean_data (k : String) (row : Row) :
    dictGet k (clean_data row) = (dictGet k row).map (cleanValue k) := by
  induction row with
  | nil => rfl
  | cons p row ih =>
      by_cases hk : p.1 = k
      · simp [dictGet, clean_data, List.find?_cons, hk]
      · simpa [dictGet, clean_data, List.find?_cons, hk] using ih

theorem mem_process_batch (rows : List Row) (r : Row) (hr : r ∈ process_batch rows) :
    ∃ r₀ ∈ rows, clean_data r₀ = r ∧ validate_row r = true := by
  rcases List.mem_filterMap.mp hr with ⟨r₀, hr₀, hsome⟩
  by_cases hval : validate_row (clean_data r₀) = true
  · refine ⟨r₀, hr₀, ?_, ?_⟩
    · simpa [hval] using hsome
    · have : clean_data r₀ = r := by simpa [hval] using hsome
      rw [← this]; exact hval
  · simp [if_neg hval] at hsome

/-- C10: `DataProcessor.clean_data` is idempotent on rows of modelled scalar
values (strings, None, booleans, finite numbers): cleaning an already
cleaned row changes nothing. -/
theorem claim_C10 (row : Row) : clean_data (clean_data row) = clean_data row := by
  unfold clean_data
  rw [List.map_map]
  apply List.map_congr_left
  intro p _
  show (p.1, cleanValue p.1 (cleanValue p.1 p.2)) = (p.1, cleanValue p.1 p.2)
  rw [cleanValue_idem]

/-- C8 counterexample: the claim says every numeric field of a row accepted
by `process_batch` is never negative, but a row whose `measurement_value` is
the string "-5" is cleaned to the number -5 and accepted by
`validate_row` (which exempts `measurement_value` from the negative check),
so `process_batch` outputs a negative `measurement_value`. -/
theorem claim_C8_counterexample :
    process_batch
        [[("food_name", PyVal.str "x"), ("measurement_unit", PyVal.str "g"),
          ("food_id", PyVal.num 1), ("measurement_value", PyVal.str "-5")]]
      = [[("food_name", PyVal.str "x"), ("measurement_unit", PyVal.str "g"),
          ("food_id", PyVal.num 1), ("measurement_value", PyVal.num (-5))]]
    ∧ dictGet "measurement_value"
        [("food_name", PyVal.str "x"), ("measurement_unit", PyVal.str "g"),
         ("food_id", PyVal.num 1), ("measurement_value", PyVal.num (-5))]
      = Option.some (PyVal.num (-5))
    ∧ (-5 : ℚ) < 0 := by
  refine ⟨by decide, by decide, by norm_num⟩

/-- C8 (amended): every numeric field present in a row output by
`DataProcessor.process_batch` (clean_data followed by an accepting
validate_row) is either null or a finite number — never a non-numeric
string — and every such field except `measurement_value` is non-negative;
`measurement_value` may be negative. -/
theorem claim_C8 (rows : List Row) (r : Row) (hr : r ∈ process_batch rows)
    (f : String) (hf : f ∈ NUMERIC_FIELDS) (v : PyVal)
    (hv : dictGet f r = Option.some v) :
    v = .none ∨ ∃ q : ℚ, v = .num q ∧ (f ≠ "measurement_value" → 0 ≤ q) := by
  rcases mem_process_batch rows r hr with ⟨r₀, _, hclean, hval⟩
  have hft : f ∉ TEXT_FIELDS := by
    have : NUMERIC_FIELDS.all (fun g => decide (g ∉ TEXT_FIELDS)) = true := by decide
    simpa using List.all_eq_true.mp this f hf
  have hvv : ∃ v₀, dictGet f r₀ = Option.some v₀ ∧ v = cleanValue f v₀ := by
    rw [← hclean, dictGet_clean_data] at hv
    cases h0 : dictGet f r₀ with
    | none => rw [h0] at hv; simp at hv
    | some v₀ =>
        rw [h0] at hv
        exact ⟨v₀, rfl, by simpa using hv.symm⟩
  rcases hvv with ⟨v₀, _, hv₀⟩
  rcases cleanValue_numeric_shape f hft hf v₀ with hsh | ⟨q, hsh⟩
  · left; rw [hv₀, hsh]
  · right
    refine ⟨q, by rw [hv₀, hsh], ?_⟩
    intro hne
    have hok : numericFieldOk r f = true := by
      simp only [validate_row] at hval
      rcases (by simpa using hval : requiredOk r = true ∧
        NUMERIC_FIELDS.all (numericFieldOk r) = true ∧ foodIdOk r = true)
        with ⟨_, hall, _⟩
      exact List.all_eq_true.mp hall f hf
    have hvq : v = PyVal.num q := by rw [hv₀, hsh]
    rw [numericFieldOk, hv, hvq] at hok
    simp [pyFloat, hne] at hok
    exact hok

/-! ### Checkpoint store (`CheckpointManager`, src/src/checkpoint.py)

The checkpoint directory is modelled by the two file slots the manager
touches: the primary checkpoint file and its `.bak` sibling. Opening and
parsing a file on disk has three outcomes: it parses as JSON; it reads as
text but fails JSON decoding (`json.JSONDecodeError`); or reading raises
some other exception, such as `UnicodeDecodeError` on undecodable bytes or
`RecursionError` on pathologically nested input. `load` distinguishes the
last two: only a `json.JSONDecodeError` reaches backup recovery (lines
62-64); every other exception is caught by `except Exception` and yields
the zero-value state directly (lines 65-72). `json.dump` followed by
`json.load` is modelled as the identity on `Json` values. The serialised temporary file is
invisible to the other operations and is not modelled. I/O failures of the
three fallible steps of `save` (the `shutil.copy2` backup, writing the
temporary file, and the atomic `os.replace`) are modelled by Boolean
failure flags; the Python code runs all three inside one `try` block whose
handler returns `False`. -/

/-- A JSON value, the serialisation domain of the checkpoint file. -/
inductive Json where
  | null : Json
  | bool (b : Bool) : Json
  | num (q : ℚ) : Json
  | str (s : String) : Json
  | arr (elems : List Json) : Json
  | obj (fields : List (String × Json)) : Json

/-- Content of a file on disk, as seen by `open` + `json.load`:
`jsonFile` parses; `corrupt` reads as text but fails JSON decoding
(`json.JSONDecodeError`); `unreadable` raises some other exception while
being read or parsed (e.g. `UnicodeDecodeError`, `RecursionError`). -/
inductive FileContent where
  | jsonFile (j : Json) : FileContent
  | corrupt : FileContent
  | unreadable : FileContent

/-- The two checkpoint file slots (`checkpoint.json` and `checkpoint.json.bak`);
`Option.none` means the file does not exist. -/
structure CkptFS where
  primary : Option FileContent
  backup : Option FileContent

/-- Field access on a JSON object (`dict.get`). -/
def jsonGet (k : String) (j : Json) : Option Json :=
  match j with
  | .obj kvs => (kvs.find? (fun p => p.1 = k)).map Prod.snd
  | _ => Option.none

/-- The element list of a JSON array (empty for anything else). -/
def jsonElems (o : Option Json) : List Json :=
  match o with
  | Option.some (.arr xs) => xs
  | _ => []

/-- The zero-value state returned by `load` when nothing is recoverable
(checkpoint.py lines 44-49, 67-72, 90-95). -/
def zeroState : Json :=
  .obj [("completed_ids", .arr []), ("data", .arr []),
        ("last_checkpoint", .null), ("total_scraped", .num 0)]

/-- `CheckpointManager._try_backup_recovery` (lines 74-95): return the
backup's JSON if it exists and parses; any exception while reading the
backup is caught (lines 87-88), giving the zero-value state. -/
def tryBackupRecovery (fs : CkptFS) : Json :=
  match fs.backup with
  | Option.some (.jsonFile j) => j
  | _ => zeroState

/-- `CheckpointManager.load` (lines 36-72): a missing file gives the
zero-value state; a `json.JSONDecodeError` (lines 62-64) falls back to
backup recovery; any other exception while reading the primary is caught
by `except Exception` (lines 65-72) and gives the zero-value state without
consulting the backup; the function never raises (it is total). -/
def load (fs : CkptFS) : Json :=
  match fs.primary with
  | Option.none => zeroState
  | Option.some (.jsonFile j) => j
  | Option.some .corrupt => tryBackupRecovery fs
  | Option.some .unreadable => zeroState

/-- The JSON encoding of an integer id. -/
def jsonNumOfInt (n : ℤ) : Json := Json.num (n : ℚ)

/-- The checkpoint JSON object serialised by `save` (lines 120-125):
sorted completed ids, the data rows, a timestamp and the row count. -/
def ckptContent (now : String) (completed_ids : List ℤ) (data : List Json) : Json :=
  .obj [("completed_ids",
          .arr ((List.insertionSort (fun a b : ℤ => a ≤ b) completed_ids).map
            jsonNumOfInt)),
        ("data", .arr data),
        ("last_checkpoint", .str now),
        ("total_scraped", .num (data.length : ℚ))]

/-- The serialise-and-rename tail of `save` (lines 127-153). -/
def saveWrite (now : String) (writeFails renameFails : Bool) (fs : CkptFS)
    (completed_ids : List ℤ) (data : List Json) : CkptFS × Bool :=
  if writeFails then (fs, false)
  else if renameFails then (fs, false)
  else ({fs with primary := Option.some (.jsonFile (ckptContent now completed_ids data))},
        true)

/-- `CheckpointManager.save` (lines 97-157): if the primary file exists it is
first copied to the `.bak` slot (`shutil.copy2`, line 117); any exception in
that copy is caught by the surrounding handler, which returns `False`
without writing; otherwise the new content is written to a temporary file
and atomically renamed over the primary. -/
def save (now : String) (copyFails writeFails renameFails : Bool) (fs : CkptFS)
    (completed_ids : List ℤ) (data : List Json) : CkptFS × Bool :=
  match fs.primary with
  | Option.some p =>
      if copyFails then (fs, false)
      else saveWrite now writeFails renameFails { fs with backup := Option.some p }
        completed_ids data
  | Option.none => saveWrite now writeFails renameFails fs completed_ids data

theorem save_success_primary (now : String) (cf wf rf : Bool) (fs : CkptFS)
    (S : List ℤ) (R : List Json) (h : (save now cf wf rf fs S R).2 = true) :
    (save now cf wf rf fs S R).1.primary
      = Option.some (.jsonFile (ckptContent now S R)) := by
  obtain ⟨op, ob⟩ := fs
  cases op with
  | none =>
      unfold save saveWrite at h ⊢
      cases wf with
      | true => simp at h
      | false =>
          cases rf with
          | true => simp at h
          | false => rfl
  | some p =>
      unfold save saveWrite at h ⊢
      cases cf with
      | true => simp at h
      | false =>
          cases wf with
          | true => simp at h
          | false =>
              cases rf with
              | true => simp at h
              | false => rfl

theorem mem_map_jsonNum (l : List ℤ) (n : ℤ) :
    jsonNumOfInt n ∈ l.map jsonNumOfInt ↔ n ∈ l := by
  induction l with
  | nil => simp
  | cons a l ih =>
      simp only [List.map_cons, List.mem_cons, ih]
      constructor
      · rintro (h | h)
        · left
          have hq : (n : ℚ) = (a : ℚ) := by injection h
          exact_mod_cast hq
        · right; exact h
      · rintro (h | h)
        · left; subst h; rfl
        · right; exact h

/-- C1: if `save(S, R)` reports success, a subsequent `load()` returns a
state whose `completed_ids`, taken as a set, equals the set of `S`, and
whose `data` field equals `R` with order preserved. (JSON-serialisable
records are modelled as `Json` values; serialisation round-trips them.) -/
theorem claim_C1 (now : String) (cf wf rf : Bool) (fs : CkptFS)
    (S : List ℤ) (R : List Json) (h : (save now cf wf rf fs S R).2 = true) :
    (∀ n : ℤ,
        jsonNumOfInt n ∈
          jsonElems (jsonGet "completed_ids" (load (save now cf wf rf fs S R).1))
        ↔ n ∈ S)
    ∧ jsonGet "data" (load (save now cf wf rf fs S R).1)
        = Option.some (Json.arr R) := by
  have hp := save_success_primary now cf wf rf fs S R h
  have hl : load (save now cf wf rf fs S R).1 = ckptContent now S R := by
    unfold load
    rw [hp]
  rw [hl]
  constructor
  · intro n
    have he : jsonElems (jsonGet "completed_ids" (ckptContent now S R))
        = (List.insertionSort (fun a b : ℤ => a ≤ b) S).map jsonNumOfInt := rfl
    rw [he, mem_map_jsonNum]
    exact (List.perm_insertionSort (fun a b : ℤ => a ≤ b) S).mem_iff
  · rfl

/-- Witness for C1: a successful save of S = [2, 1], R = one record. -/
theorem claim_C1_witness :
    ((save "t" false false false ⟨Option.none, Option.none⟩ [2, 1]
        [Json.obj [("food_id", Json.num 2)]]).2 = true)
    ∧ (∀ n : ℤ,
        jsonNumOfInt n ∈
          jsonElems (jsonGet "completed_ids"
            (load (save "t" false false false ⟨Option.none, Option.none⟩ [2, 1]
              [Json.obj [("food_id", Json.num 2)]]).1))
        ↔ n ∈ ([2, 1] : List ℤ))
    ∧ jsonGet "data"
        (load (save "t" false false false ⟨Option.none, Option.none⟩ [2, 1]
          [Json.obj [("food_id", Json.num 2)]]).1)
        = Option.some (Json.arr [Json.obj [("food_id", Json.num 2)]]) := by
  refine ⟨rfl, ?_⟩
  exact claim_C1 "t" false false false ⟨Option.none, Option.none⟩ [2, 1]
    [Json.obj [("food_id", Json.num 2)]] rfl

/-- C3 counterexample: the claim says a failure of the preliminary `.bak`
copy does not block the save; but with the primary file present and the
copy failing, `save` returns `False` and leaves the file system unchanged
(the backup copy runs inside the same `try` whose handler aborts the save,
checkpoint.py lines 112-117 and 155-157). -/
theorem claim_C3_counterexample :
    (save "t" true false false ⟨Option.some (.jsonFile zeroState), Option.none⟩ [] []).2
      = false
    ∧ (save "t" true false false ⟨Option.some (.jsonFile zeroState), Option.none⟩ [] []).1
      = ⟨Option.some (.jsonFile zeroState), Option.none⟩ :=
  ⟨rfl, rfl⟩

/-- C3 (amended): a failure of the preliminary copy of the primary file to
the `.bak` path aborts the save entirely — `save` reports failure and the
file system (primary and backup alike) is left unchanged. -/
theorem claim_C3 (now : String) (wf rf : Bool) (fs : CkptFS)
    (S : List ℤ) (R : List Json) (h : fs.primary.isSome = true) :
    save now true wf rf fs S R = (fs, false) := by
  unfold save
  cases hp : fs.primary with
  | none => rw [hp] at h; simp at h
  | some p => simp

/-- Witness for C3 at a concrete file system with a primary present. -/
theorem claim_C3_witness :
    save "t" true false false ⟨Option.some (.jsonFile zeroState), Option.none⟩ [7] []
      = (⟨Option.some (.jsonFile zeroState), Option.none⟩, false) :=
  claim_C3 "t" false false ⟨Option.some (.jsonFile zeroState), Option.none⟩ [7] [] rfl

/-- C4 counterexample: the claim says that whenever the primary checkpoint
file contains invalid content and a valid `.bak` exists, `load()` returns
the `.bak` contents; but backup recovery is reached only on
`json.JSONDecodeError` (checkpoint.py lines 62-64) — a primary whose read
raises any other exception (undecodable bytes giving `UnicodeDecodeError`,
recursion-depth failure on pathologically nested input) falls into the
`except Exception` handler (lines 65-72), which returns the zero-value
state even though a valid `.bak` is present. -/
theorem claim_C4_counterexample :
    load ⟨Option.some .unreadable, Option.some (.jsonFile (Json.num 7))⟩
      = zeroState
    ∧ zeroState ≠ Json.num 7 :=
  ⟨rfl, fun h => Json.noConfusion h⟩

/-- C4 (amended): the backup fallback happens exactly on a JSON-decode
failure of the primary: if the primary fails JSON decoding
(`json.JSONDecodeError`) and a valid `.bak` exists, `load()` returns the
`.bak` contents; if reading the primary raises any other exception,
`load()` returns the zero-value state even when a valid `.bak` exists; if
the primary and the `.bak` are both invalid (either way) or missing,
`load()` returns the zero-value state (empty completed_ids, empty data,
null timestamp, zero total). `load` is a total function, so it never
raises. -/
theorem claim_C4 (fs : CkptFS) :
    (∀ j : Json, fs.primary = Option.some .corrupt →
      fs.backup = Option.some (.jsonFile j) → load fs = j)
    ∧ (fs.primary = Option.some .unreadable → load fs = zeroState)
    ∧ ((fs.primary = Option.none ∨ fs.primary = Option.some .corrupt ∨
          fs.primary = Option.some .unreadable) →
       (fs.backup = Option.none ∨ fs.backup = Option.some .corrupt ∨
          fs.backup = Option.some .unreadable) →
       load fs = zeroState) := by
  refine ⟨?_, ?_, ?_⟩
  · intro j hp hb
    unfold load
    rw [hp]
    unfold tryBackupRecovery
    rw [hb]
  · intro hp
    unfold load
    rw [hp]
  · rintro (hp | hp | hp) hb
    · unfold load; rw [hp]
    · unfold load
      rw [hp]
      unfold tryBackupRecovery
      rcases hb with hb | hb | hb
      · rw [hb]
      · rw [hb]
      · rw [hb]
    · unfold load; rw [hp]

/-- Witness for C4: backup recovery at a decode-failed primary with a valid
backup; the zero-value state at an unreadable primary; and the zero-value
fallback when both files are bad. -/
theorem claim_C4_witness :
    load ⟨Option.some .corrupt, Option.some (.jsonFile (Json.num 7))⟩ = Json.num 7
    ∧ load ⟨Option.some .unreadable, Option.none⟩ = zeroState
    ∧ load ⟨Option.some .corrupt, Option.some .unreadable⟩ = zeroState :=
  ⟨(claim_C4 ⟨Option.some .corrupt, Option.some (.jsonFile (Json.num 7))⟩).1
      (Json.num 7) rfl rfl,
   (claim_C4 ⟨Option.some .unreadable, Option.none⟩).2.1 rfl,
   (claim_C4 ⟨Option.some .corrupt, Option.some .unreadable⟩).2.2
      (Or.inr (Or.inl rfl)) (Or.inr (Or.inr rfl))⟩

/-! ### Incremental writer (`IncrementalWriter`, src/src/incremental_writer.py)

The delimited-text sink is modelled as an optional file holding a header
row and data rows of rendered cells; the workbook sink as an optional list
of data rows. `pandas.DataFrame(data)` over a list of dicts is modelled by
its column list (union of record keys in order of first appearance) and
per-record cell lookup, with missing keys giving NaN; `to_csv` renders NaN
and `None` as empty cells. Failures of the two sink writes performed by
`flush` are modelled by Boolean flags; the code re-raises and only clears
the buffer after both writes succeed. -/

/-- `IncrementalWriter.COLUMNS` (lines 28-40): field key and display header,
in the fixed contract order. -/
def COLUMNS : List (String × String) := [
  ("food_name", "Food Name"),
  ("measurement_unit", "Measurement Unit"),
  ("calories", "Calories"),
  ("fat_g", "Fat (g)"),
  ("protein_g", "Protein (g)"),
  ("carbs_g", "Carbs (g)"),
  ("fiber_g", "Fiber (g)"),
  ("sugar_g", "Sugar (g)"),
  ("salt_g", "Salt (g)"),
  ("measurement_value", "Measurement Value"),
  ("food_id", "Food ID")]

/-- `column_order` as computed in `_append_csv` line 136. -/
def column_order : List String := COLUMNS.map Prod.fst

/-- The numeric-column test used for back-filling (lines 141, 227):
`col.endswith('_g') or col == 'calories' or col == 'measurement_value'`.
Note that `food_id` is not numeric by this test. -/
def isNumericCol (c : String) : Bool :=
  ['_', 'g'].isSuffixOf c.data ∨ c = "calories" ∨ c = "measurement_value"

/-- A DataFrame cell: NaN (missing key) or a scalar. -/
inductive DfCell where
  | na : DfCell
  | val (v : PyVal) : DfCell
  deriving DecidableEq

/-- A rendered sink cell. -/
inductive Cell where
  | empty : Cell
  | str (s : String) : Cell
  | boolc (b : Bool) : Cell
  | num (q : ℚ) : Cell
  deriving DecidableEq

/-- Key accumulator for the DataFrame column list. -/
def addKey (acc : List String) (k : String) : List String :=
  if acc.contains k then acc else acc ++ [k]

/-- `pd.DataFrame(data).columns`: union of the record key sets in order of
first appearance. -/
def dfColumns (data : List Row) : List String :=
  data.foldl (fun acc r => (r.map Prod.fst).foldl addKey acc) []

/-- The back-fill default assigned to a column missing from the whole batch
(`_append_csv` lines 139-146): 0.0 for `_g`/calories/measurement_value
columns, empty string for the text columns, and Python `None` otherwise
(which is the `food_id` case). -/
def csvDefault (c : String) : DfCell :=
  if isNumericCol c then .val (.num 0)
  else if c = "food_name" ∨ c = "measurement_unit" then .val (.str "")
  else .val .none

/-- Cell of the back-filled, reindexed DataFrame at record `r`, column `c`:
a key present in the record gives its value; a key missing from this record
but present elsewhere in the batch is NaN; a column missing from the whole
batch gets the back-fill default. -/
def dfCell (data : List Row) (r : Row) (c : String) : DfCell :=
  match dictGet c r with
  | Option.some v => .val v
  | Option.none =>
      if c ∈ dfColumns data then .na else csvDefault c

/-- `to_csv` cell rendering: NaN and `None` give an empty cell. -/
def renderCell : DfCell → Cell
  | .na => .empty
  | .val .none => .empty
  | .val (.str s) => .str s
  | .val (.bool b) => .boolc b
  | .val (.num q) => .num q

/-- One output row of `_append_csv` for record `r` of the batch. -/
def csvRow (data : List Row) (r : Row) : List Cell :=
  column_order.map (fun c => renderCell (dfCell data r c))

/-- The delimited-text sink file: header row and data rows. -/
structure CsvFile where
  header : List String
  rows : List (List Cell)
  deriving DecidableEq

/-- `IncrementalWriter._append_csv` (lines 123-180): empty batches return
immediately; a new file is written with the fixed header; an existing file
is appended to without touching its header. -/
def appendCsv (file : Option CsvFile) (data : List Row) : Option CsvFile :=
  match data with
  | [] => file
  | _ =>
      let newRows := data.map (csvRow data)
      match file with
      | Option.none => Option.some ⟨column_order, newRows⟩
      | Option.some f => Option.some ⟨f.header, f.rows ++ newRows⟩

/-- Cell value written by `_append_excel` (lines 223-245): a missing or
`None` value becomes 0.0 in a numeric column and the empty string elsewhere
(including `food_id`). -/
def excelCellVal (r : Row) (c : String) : Cell :=
  match dictGet c r with
  | Option.some v =>
      if v = .none then (if isNumericCol c then .num 0 else .str "")
      else renderCell (.val v)
  | Option.none => if isNumericCol c then .num 0 else .str ""

/-- One data row written to the workbook sink. -/
def excelRow (r : Row) : List Cell :=
  column_order.map (excelCellVal r)

/-- The workbook sink: its data rows (header and styling not modelled). -/
structure XlsxFile where
  rows : List (List Cell)
  deriving DecidableEq

/-- `IncrementalWriter._append_excel` (lines 182-294): append one row per
record after the current last row, creating the workbook if needed. -/
def appendExcel (file : Option XlsxFile) (data : List Row) : Option XlsxFile :=
  match data with
  | [] => file
  | _ =>
      match file with
      | Option.none => Option.some ⟨data.map excelRow⟩
      | Option.some f => Option.some ⟨f.rows ++ data.map excelRow⟩

/-- The writer's mutable state: the pending buffer and the two sinks. -/
structure WriterState where
  pending : List Row
  csv : Option CsvFile
  excel : Option XlsxFile
  deriving DecidableEq

/-- `IncrementalWriter.flush` (lines 103-121) with failure flags for the two
sink writes: an empty buffer is a no-op; otherwise the CSV append runs
first, then the Excel append, and only after both succeed is the buffer
cleared; a failure re-raises (second component `false`) and leaves
`pending` untouched. -/
def flush (csvFails excelFails : Bool) (st : WriterState) : WriterState × Bool :=
  if st.pending = [] then (st, true)
  else if csvFails then (st, false)
  else
    let st1 : WriterState := { st with csv := appendCsv st.csv st.pending }
    if excelFails then (st1, false)
    else ({ st1 with excel := appendExcel st.excel st.pending, pending := [] }, true)

/-- C2: flushing a non-empty buffer either fails on a sink write — the
exception propagates (flush reports failure) and the pending buffer still
holds exactly the records it held before — or both writes succeed and the
buffer is empty afterwards. -/
theorem claim_C2 (cf ef : Bool) (st : WriterState) (h : st.pending ≠ []) :
    ((cf = true ∨ ef = true) →
        (flush cf ef st).2 = false ∧ (flush cf ef st).1.pending = st.pending)
    ∧ (cf = false → ef = false →
        (flush cf ef st).2 = true ∧ (flush cf ef st).1.pending = []) := by
  unfold flush
  rw [if_neg h]
  cases cf with
  | true =>
      refine ⟨fun _ => ⟨rfl, rfl⟩, ?_⟩
      intro hc _
      exact absurd hc (by simp)
  | false =>
      cases ef with
      | true =>
          refine ⟨fun _ => ⟨by simp, by simp⟩, ?_⟩
          intro _ he
          exact absurd he (by simp)
      | false =>
          refine ⟨?_, fun _ _ => ⟨by simp, by simp⟩⟩
          rintro (hc | he)
          · exact absurd hc (by simp)
          · exact absurd he (by simp)

/-- Witness for C2: a CSV-write failure on a one-record buffer keeps the
buffer; the record and sinks are concrete. -/
theorem claim_C2_witness :
    (⟨[[("food_name", PyVal.str "x")]], Option.none, Option.none⟩ :
        WriterState).pending ≠ []
    ∧ (((true = true ∨ false = true) →
        (flush true false ⟨[[("food_name", PyVal.str "x")]], Option.none,
            Option.none⟩).2 = false
        ∧ (flush true false ⟨[[("food_name", PyVal.str "x")]], Option.none,
            Option.none⟩).1.pending = [[("food_name", PyVal.str "x")]])
      ∧ (true = false → false = false →
        (flush true false ⟨[[("food_name", PyVal.str "x")]], Option.none,
            Option.none⟩).2 = true
        ∧ (flush true false ⟨[[("food_name", PyVal.str "x")]], Option.none,
            Option.none⟩).1.pending = [])) :=
  ⟨by decide,
   claim_C2 true false ⟨[[("food_name", PyVal.str "x")]], Option.none, Option.none⟩
     (by decide)⟩

/-- C6 counterexample: the claim says a missing item-id column is
back-filled with 0.0, but a batch whose single record lacks `food_id` is
written with an empty `food_id` cell (the Python code back-fills that
column with `None`, lines 145-146), not 0.0. All other missing numeric
columns do get 0.0 and the missing text column gets the empty string. -/
theorem claim_C6_counterexample :
    appendCsv Option.none [[("food_name", PyVal.str "x")]]
      = Option.some ⟨column_order,
          [[Cell.str "x", Cell.str "", Cell.num 0, Cell.num 0, Cell.num 0,
            Cell.num 0, Cell.num 0, Cell.num 0, Cell.num 0, Cell.num 0,
            Cell.empty]]⟩
    ∧ Cell.empty ≠ Cell.num 0 := by
  refine ⟨by decide, by decide⟩

/-- The cell value `_append_csv` actually writes for record `r`, column `c`
of a batch: the record's own value if the key is present; an empty cell if
the key is missing but the column occurs elsewhere in the batch; otherwise
the whole column is missing and is back-filled with 0.0 for numeric
nutrient/measurement columns, the empty string for text columns, and an
empty cell for `food_id`. -/
def csvCellSpec (data : List Row) (r : Row) (c : String) : Cell :=
  match dictGet c r with
  | Option.some v => renderCell (.val v)
  | Option.none =>
      if c ∈ dfColumns data then Cell.empty
      else if isNumericCol c then Cell.num 0
      else if c = "food_name" ∨ c = "measurement_unit" then Cell.str ""
      else Cell.empty

/-- C6 (amended): the delimited-text append always writes rows in the fixed
column order with the fixed column count (11); a numeric nutrient or
measurement-value column wholly absent from the batch is back-filled with
0.0 and a wholly absent text column with the empty string, but a wholly
absent item-id column is back-filled with an empty cell (None), and a key
absent from one record while present in another is written as an empty
cell. -/
theorem claim_C6 (file : Option CsvFile) (data : List Row) (h : data ≠ []) :
    appendCsv file data
      = Option.some
          ⟨(match file with
            | Option.none => column_order
            | Option.some f0 => f0.header),
           (match file with
            | Option.none => []
            | Option.some f0 => f0.rows)
             ++ data.map (fun r => column_order.map (csvCellSpec data r))⟩
    ∧ ∀ r ∈ data, (column_order.map (csvCellSpec data r)).length = 11 := by
  have hcell : ∀ r : Row, csvRow data r = column_order.map (csvCellSpec data r) := by
    intro r
    unfold csvRow
    apply List.map_congr_left
    intro c _
    unfold csvCellSpec dfCell
    cases hg : dictGet c r with
    | some v => rfl
    | none =>
        by_cases hc : c ∈ dfColumns data
        · rw [if_pos hc, if_pos hc]; rfl
        · rw [if_neg hc, if_neg hc]
          unfold csvDefault
          by_cases hn : isNumericCol c = true
          · rw [if_pos hn, if_pos hn]; rfl
          · rw [if_neg hn, if_neg hn]
            by_cases htx : c = "food_name" ∨ c = "measurement_unit"
            · rw [if_pos htx, if_pos htx]; rfl
            · rw [if_neg htx, if_neg htx]; rfl
  have hm : data.map (csvRow data)
      = data.map (fun r => column_order.map (csvCellSpec data r)) :=
    List.map_congr_left (fun x _ => hcell x)
  refine ⟨?_, ?_⟩
  · cases data with
    | nil => exact absurd rfl h
    | cons r rest =>
        cases file with
        | none =>
            show Option.some
                (⟨column_order, (r :: rest).map (csvRow (r :: rest))⟩ : CsvFile) = _
            rw [hm]
            rfl
        | some f0 =>
            show Option.some
                (⟨f0.header, f0.rows ++ (r :: rest).map (csvRow (r :: rest))⟩ :
                  CsvFile) = _
            rw [hm]
  · intro r _
    simp [column_order, COLUMNS]

/-- Witness for C6 on a concrete batch with an existing file. -/
theorem claim_C6_witness :
    ([[("food_name", PyVal.str "x")]] : List Row) ≠ []
    ∧ (appendCsv (Option.some ⟨column_order, []⟩) [[("food_name", PyVal.str "x")]]
        = Option.some
            ⟨column_order,
             [] ++ [[("food_name", PyVal.str "x")]].map
               (fun r => column_order.map
                 (csvCellSpec [[("food_name", PyVal.str "x")]] r))⟩
      ∧ ∀ r ∈ ([[("food_name", PyVal.str "x")]] : List Row),
          (column_order.map (csvCellSpec [[("food_name", PyVal.str "x")]] r)).length
            = 11) := by
  refine ⟨by decide, ?_⟩
  have := claim_C6 (Option.some ⟨column_order, []⟩) [[("food_name", PyVal.str "x")]]
    (by decide)
  simpa using this

/-! ### Skip ledger (`SkippedLogger`, src/src/skipped_logger.py)

The in-memory ledger `self.skipped_items` is a list of entry dictionaries
with a fixed shape, modelled by the structure `SkipEntry`. The atomic
`_save` to disk either mirrors the in-memory list or raises; it does not
change the list, so the theorems are about the in-memory ledger. -/

/-- One skipped-item entry (the dict built at lines 102-109). -/
structure SkipEntry where
  food_id : ℤ
  timestamp : String
  error_type : String
  error_message : String
  reason : String
  traceback : String
  deriving DecidableEq

/-- A Python exception as far as `log_skipped` inspects it: class name,
message and formatted traceback. -/
structure PyExc where
  name : String
  msg : String
  tb : String
  deriving DecidableEq

/-- Python `a or b` for an optional string `a`: empty and missing strings
fall through to `b`. -/
def orElseStr (a : Option String) (b : String) : String :=
  match a with
  | Option.some s => if s = "" then b else s
  | Option.none => b

/-- The entry built by `SkippedLogger.log_skipped` (lines 76-109) from its
arguments: an exception supplies type/message/traceback; otherwise a bare
message gets type "Unknown"; falsy fields fall back to defaults. -/
def mkSkipEntry (now : String) (food_id : ℤ) (error : Option PyExc)
    (error_message : Option String) (reason : Option String) : SkipEntry :=
  let et : Option String :=
    match error with
    | Option.some e => Option.some e.name
    | Option.none =>
        match error_message with
        | Option.some _ => Option.some "Unknown"
        | Option.none => Option.none
  let em : Option String :=
    match error with
    | Option.some e => Option.some e.msg
    | Option.none => error_message
  let tb : Option String :=
    match error with
    | Option.some e => Option.some e.tb
    | Option.none => Option.none
  { food_id := food_id
    timestamp := now
    error_type := orElseStr et "Unknown"
    error_message := orElseStr em (orElseStr error_message "No error details")
    reason := orElseStr reason "unknown"
    traceback := orElseStr tb "" }

/-- `SkippedLogger.log_skipped` (lines 61-120): find the first entry with the
same `food_id` and replace it, else append the new entry. -/
def log_skipped (now : String) (ledger : List SkipEntry) (food_id : ℤ)
    (error : Option PyExc) (error_message : Option String)
    (reason : Option String) : List SkipEntry :=
  let e := mkSkipEntry now food_id error error_message reason
  match ledger.findIdx? (fun item => item.food_id = food_id) with
  | Option.some i => ledger.set i e
  | Option.none => ledger ++ [e]

/-- `SkippedLogger.remove_skipped` (lines 169-188): drop every entry with the
given id; the flag reports whether anything was removed. -/
def remove_skipped (ledger : List SkipEntry) (food_id : ℤ) :
    List SkipEntry × Bool :=
  let filtered := ledger.filter (fun item => ¬(item.food_id = food_id))
  (filtered, filtered.length < ledger.length)

/-- The ledger invariant: at most one entry per `food_id`. -/
def UniqueIds (ledger : List SkipEntry) : Prop :=
  ledger.Pairwise (fun a b => a.food_id ≠ b.food_id)

/-- Replace-or-append characterisation of the find-index-and-set upsert. -/
def upsert (e : SkipEntry) : List SkipEntry → List SkipEntry
  | [] => [e]
  | x :: xs => if x.food_id = e.food_id then e :: xs else x :: upsert e xs

theorem log_skipped_eq_upsert (now : String) (ledger : List SkipEntry)
    (food_id : ℤ) (error : Option PyExc) (error_message : Option String)
    (reason : Option String) :
    log_skipped now ledger food_id error error_message reason
      = upsert (mkSkipEntry now food_id error error_message reason) ledger := by
  unfold log_skipped
  induction ledger with
  | nil => rfl
  | cons x xs ih =>
      rw [List.findIdx?_cons]
      by_cases hx : x.food_id = food_id
      · rw [if_pos (by simpa using hx)]
        show (x :: xs).set 0 _ = _
        rw [List.set_cons_zero]
        unfold upsert
        rw [if_pos (by show x.food_id = _; exact hx)]
      · rw [if_neg (by simpa using hx), List.findIdx?_succ]
        unfold upsert
        rw [if_neg (by show ¬x.food_id = _; exact hx)]
        cases hf : xs.findIdx? (fun item => item.food_id = food_id) with
        | none =>
            rw [hf] at ih
            simp only [hf]
            show x :: (xs ++ [mkSkipEntry now food_id error error_message reason])
              = x :: upsert (mkSkipEntry now food_id error error_message reason) xs
            exact congrArg (x :: ·) ih
        | some j =>
            rw [hf] at ih
            simp only [hf]
            show (x :: xs).set (j + 1) (mkSkipEntry now food_id error error_message reason)
              = x :: upsert (mkSkipEntry now food_id error error_message reason) xs
            rw [List.set_cons_succ]
            exact congrArg (x :: ·) ih

theorem mem_upsert (e : SkipEntry) (ledger : List SkipEntry) (y : SkipEntry)
    (hy : y ∈ upsert e ledger) : y = e ∨ y ∈ ledger := by
  induction ledger with
  | nil => simpa [upsert] using hy
  | cons x xs ih =>
      unfold upsert at hy
      by_cases hx : x.food_id = e.food_id
      · rw [if_pos hx] at hy
        rcases List.mem_cons.mp hy with h | h
        · left; exact h
        · right; exact List.mem_cons_of_mem x h
      · rw [if_neg hx] at hy
        rcases List.mem_cons.mp hy with h | h
        · right; rw [h]; exact List.mem_cons_self x xs
        · rcases ih h with h2 | h2
          · left; exact h2
          · right; exact List.mem_cons_of_mem x h2

theorem upsert_uniqueIds (e : SkipEntry) (ledger : List SkipEntry)
    (h : UniqueIds ledger) : UniqueIds (upsert e ledger) := by
  induction ledger with
  | nil => exact List.pairwise_singleton _ e
  | cons x xs ih =>
      rcases List.pairwise_cons.mp h with ⟨hx, hxs⟩
      unfold upsert
      by_cases hid : x.food_id = e.food_id
      · rw [if_pos hid]
        exact List.Pairwise.cons (fun y hy => hid ▸ hx y hy) hxs
      · rw [if_neg hid]
        refine List.Pairwise.cons ?_ (ih hxs)
        intro y hy
        rcases mem_upsert e xs y hy with h2 | h2
        · rw [h2]; exact hid
        · exact hx y h2

theorem upsert_filter_self (e : SkipEntry) (ledger : List SkipEntry)
    (h : UniqueIds ledger) :
    (upsert e ledger).filter (fun x => x.food_id = e.food_id) = [e] := by
  induction ledger with
  | nil => simp [upsert]
  | cons x xs ih =>
      rcases List.pairwise_cons.mp h with ⟨hx, hxs⟩
      unfold upsert
      by_cases hid : x.food_id = e.food_id
      · rw [if_pos hid]
        rw [List.filter_cons_of_pos (by simp)]
        have hnil : xs.filter (fun x => x.food_id = e.food_id) = [] := by
          rw [List.filter_eq_nil_iff]
          intro a ha
          simpa using hid ▸ (hx a ha).symm
        rw [hnil]
      · rw [if_neg hid]
        rw [List.filter_cons_of_neg (by simpa using hid)]
        exact ih hxs

/-- The arguments of one `log_skipped` call. -/
structure SkipCall where
  now : String
  food_id : ℤ
  error : Option PyExc
  error_message : Option String
  reason : Option String

/-- A sequence of `log_skipped` calls applied to a ledger. -/
def applyCalls (ledger : List SkipEntry) (calls : List SkipCall) : List SkipEntry :=
  calls.foldl
    (fun lg c => log_skipped c.now lg c.food_id c.error c.error_message c.reason)
    ledger

theorem upsert_filter_mk (now : String) (id : ℤ) (err : Option PyExc)
    (msg rsn : Option String) (L : List SkipEntry) (h : UniqueIds L) :
    (upsert (mkSkipEntry now id err msg rsn) L).filter (fun x => x.food_id = id)
      = [mkSkipEntry now id err msg rsn] := by
  have hfid : (mkSkipEntry now id err msg rsn).food_id = id := rfl
  have h2 := upsert_filter_self (mkSkipEntry now id err msg rsn) L h
  rw [hfid] at h2
  exact h2

theorem log_skipped_uniqueIds (now : String) (ledger : List SkipEntry)
    (food_id : ℤ) (error : Option PyExc) (error_message : Option String)
    (reason : Option String) (h : UniqueIds ledger) :
    UniqueIds (log_skipped now ledger food_id error error_message reason) := by
  rw [log_skipped_eq_upsert]
  exact upsert_uniqueIds _ _ h

theorem applyCalls_uniqueIds :
    ∀ (calls : List SkipCall) (ledger : List SkipEntry),
      UniqueIds ledger → UniqueIds (applyCalls ledger calls) := by
  intro calls
  induction calls with
  | nil => intro ledger h; exact h
  | cons c rest ih =>
      intro ledger h
      exact ih _ (log_skipped_uniqueIds c.now ledger c.food_id c.error
        c.error_message c.reason h)

/-- C7: starting from a ledger with at most one entry per `food_id`, any
sequence of `log_skipped` calls preserves that invariant; and two
consecutive calls for the same id leave exactly one entry for that id,
carrying the second call's data (latest failure wins). -/
theorem claim_C7 (ledger : List SkipEntry) (h : UniqueIds ledger) :
    (∀ calls : List SkipCall, UniqueIds (applyCalls ledger calls))
    ∧ (∀ c1 c2 : SkipCall, c1.food_id = c2.food_id →
        (applyCalls ledger [c1, c2]).filter (fun x => x.food_id = c2.food_id)
          = [mkSkipEntry c2.now c2.food_id c2.error c2.error_message c2.reason]) := by
  constructor
  · intro calls
    exact applyCalls_uniqueIds calls ledger h
  · intro c1 c2 _
    show (log_skipped c2.now
        (log_skipped c1.now ledger c1.food_id c1.error c1.error_message c1.reason)
        c2.food_id c2.error c2.error_message c2.reason).filter
          (fun x => x.food_id = c2.food_id) = _
    rw [log_skipped_eq_upsert]
    exact upsert_filter_mk c2.now c2.food_id c2.error c2.error_message c2.reason _
      (log_skipped_uniqueIds c1.now ledger c1.food_id c1.error c1.error_message
        c1.reason h)

/-- Witness for C7 on the empty ledger. -/
theorem claim_C7_witness :
    (∀ calls : List SkipCall, UniqueIds (applyCalls [] calls))
    ∧ (∀ c1 c2 : SkipCall, c1.food_id = c2.food_id →
        (applyCalls [] [c1, c2]).filter (fun x => x.food_id = c2.food_id)
          = [mkSkipEntry c2.now c2.food_id c2.error c2.error_message c2.reason]) :=
  claim_C7 [] List.Pairwise.nil

/-! ### Retry entry point (src/scripts/retry_skipped.py, lines 152-192)

Per retried id, the loop body is: scrape; on at least one record, add the
data and remove the skip entry; on an empty result, only count the failure
(the ledger is untouched); on an exception, upsert the entry with reason
"retry_failed". The outcome of the retried scrape is a parameter. -/

/-- Outcome of the retried `scraper.scrape_item` call. -/
inductive RetryOutcome where
  | ok (rows : List Row) : RetryOutcome
  | exn (e : PyExc) : RetryOutcome

/-- The ledger effect of one iteration of the retry loop (lines 165-189). -/
def retryStep (now : String) (ledger : List SkipEntry) (id : ℤ)
    (o : RetryOutcome) : List SkipEntry :=
  match o with
  | .ok rows =>
      if rows = [] then ledger
      else (remove_skipped ledger id).1
  | .exn e =>
      log_skipped now ledger id (Option.some e) Option.none
        (Option.some "retry_failed")

/-- C9 counterexample: the claim says a retry that fails again (including
one that yields no records) leaves the entry upserted with error kind
"retry_failed"; but when the retried scrape returns no records and does not
raise, the loop only counts the failure (retry_skipped.py lines 175-178) —
the ledger keeps the old entry, here with reason "no_data". -/
theorem claim_C9_counterexample :
    retryStep "t1" [⟨7, "t0", "Unknown", "No data extracted from page",
        "no_data", ""⟩] 7 (RetryOutcome.ok [])
      = [⟨7, "t0", "Unknown", "No data extracted from page", "no_data", ""⟩]
    ∧ (⟨7, "t0", "Unknown", "No data extracted from page", "no_data", ""⟩ :
        SkipEntry).reason ≠ "retry_failed" := by
  refine ⟨rfl, by decide⟩

/-- C9 (amended): per retried id, a successful retry (at least one record)
removes its Skip Ledger entry; a retry that raises leaves exactly one entry
for the id, upserted with reason "retry_failed"; but a retry that yields no
records without raising leaves the ledger unchanged (the old entry is
retained as-is, not re-tagged "retry_failed"). -/
theorem claim_C9 (now : String) (ledger : List SkipEntry) (id : ℤ)
    (o : RetryOutcome) (h : UniqueIds ledger) :
    (∀ rows, o = .ok rows → rows ≠ [] →
        (retryStep now ledger id o).filter (fun x => x.food_id = id) = [])
    ∧ (∀ e, o = .exn e →
        (retryStep now ledger id o).filter (fun x => x.food_id = id)
          = [mkSkipEntry now id (Option.some e) Option.none
              (Option.some "retry_failed")])
    ∧ (o = .ok [] → retryStep now ledger id o = ledger) := by
  refine ⟨?_, ?_, ?_⟩
  · rintro rows rfl hne
    show ((if rows = [] then ledger else (remove_skipped ledger id).1).filter
        (fun x => x.food_id = id)) = []
    rw [if_neg hne]
    show ((ledger.filter (fun item => ¬(item.food_id = id))).filter
        (fun x => x.food_id = id)) = []
    rw [List.filter_eq_nil_iff]
    intro a ha
    rcases List.mem_filter.mp ha with ⟨_, hpa⟩
    simpa using hpa
  · rintro e rfl
    show (log_skipped now ledger id (Option.some e) Option.none
        (Option.some "retry_failed")).filter (fun x => x.food_id = id) = _
    rw [log_skipped_eq_upsert]
    exact upsert_filter_mk now id (Option.some e) Option.none
      (Option.some "retry_failed") ledger h
  · rintro rfl
    show (if ([] : List Row) = [] then ledger else (remove_skipped ledger id).1)
        = ledger
    rw [if_pos rfl]

/-- Witness for C9: a raising retry on the empty ledger. -/
theorem claim_C9_witness :
    (∀ rows, RetryOutcome.exn ⟨"ValueError", "boom", "tb"⟩ = .ok rows →
        rows ≠ [] →
        (retryStep "t" [] 7 (RetryOutcome.exn ⟨"ValueError", "boom", "tb"⟩)).filter
          (fun x => x.food_id = 7) = [])
    ∧ (∀ e, RetryOutcome.exn ⟨"ValueError", "boom", "tb"⟩ = .exn e →
        (retryStep "t" [] 7 (RetryOutcome.exn ⟨"ValueError", "boom", "tb"⟩)).filter
          (fun x => x.food_id = 7)
          = [mkSkipEntry "t" 7 (Option.some e) Option.none
              (Option.some "retry_failed")])
    ∧ (RetryOutcome.exn ⟨"ValueError", "boom", "tb"⟩ = .ok [] →
        retryStep "t" [] 7 (RetryOutcome.exn ⟨"ValueError", "boom", "tb"⟩) = []) :=
  claim_C9 "t" [] 7 (RetryOutcome.exn ⟨"ValueError", "boom", "tb"⟩)
    List.Pairwise.nil

/-! ### Orchestrator scrape loop (`FastMankanScraper.scrape_all`,
src/src/scraper_fast.py lines 370-472)

The loop is modelled as a trace of side effects on the writer, the skip
ledger, the checkpoint manager and the browser. Each identifier's
processing has one of three outcomes: `scrape_item` returns a (possibly
empty) record list, it raises an `Exception` (caught by the per-item
handler at line 434), or a non-`Exception` error such as `KeyboardInterrupt`
escapes the loop (`fatal`). On the normal path the code saves a forced
checkpoint (line 449) and then finalizes (line 452); the `finally` block
(lines 464-470) runs `finalize` again and closes the browser — it contains
no checkpoint save. -/

/-- Outcome of processing one identifier in the loop body. -/
inductive Outcome where
  | ok (rows : List Row) : Outcome
  | exn : Outcome
  | fatal : Outcome
  deriving DecidableEq

/-- One observable side effect of the scrape loop. -/
inductive Ev where
  | addData (rows : List Row) : Ev
  | logSkipped (id : ℤ) (reason : String) : Ev
  | save (force : Bool) : Ev
  | finalize : Ev
  | closeBrowser : Ev
  deriving DecidableEq

/-- Prefix one event onto a trace-and-result pair. -/
def prependEv (e : Ev) (r : List Ev × Bool) : List Ev × Bool :=
  (e :: r.1, r.2)

/-- Prefix several events onto a trace-and-result pair. -/
def prependEvs (es : List Ev) (r : List Ev × Bool) : List Ev × Bool :=
  (es ++ r.1, r.2)

/-- The loop of `scrape_all` over the remaining items, carrying the current
size of `completed_ids`. The Boolean result is `true` for a normal return
and `false` when a fatal error propagates out of the loop (in which case
the `finally` block still appends `finalize` and `closeBrowser`, lines
464-470, but no checkpoint save). On normal exhaustion the exit sequence is
forced save (line 449), finalize (line 452), then the `finally` block's
finalize and browser close. Periodic saves fire when the completed count
is divisible by twice the checkpoint frequency (line 430). -/
def runLoop (freq : ℕ) : ℕ → List (ℤ × Outcome) → List Ev × Bool
  | _, [] => ([.save true, .finalize, .finalize, .closeBrowser], true)
  | completed, (id, o) :: rest =>
      match o with
      | .ok rows =>
          if rows = [] then
            prependEv (.logSkipped id "no_data") (runLoop freq completed rest)
          else
            prependEvs
              (.addData rows ::
                (if (completed + 1) % (2 * freq) = 0 then [Ev.save false] else []))
              (runLoop freq (completed + 1) rest)
      | .exn => prependEv (.logSkipped id "exception") (runLoop freq completed rest)
      | .fatal => ([.finalize, .closeBrowser], false)

/-- `scrape_all` restricted to its effect trace: the items are the ids that
survived the completed-filter (line 389), paired with their outcomes;
`initCompleted` is the size of the completed set loaded from the
checkpoint. -/
def scrape_all (freq initCompleted : ℕ) (items : List (ℤ × Outcome)) :
    List Ev × Bool :=
  runLoop freq initCompleted items

theorem runLoop_no_fatal (freq : ℕ) :
    ∀ (items : List (ℤ × Outcome)) (init : ℕ),
      (∀ x ∈ items, x.2 ≠ Outcome.fatal) →
      ∃ pre, runLoop freq init items
        = (pre ++ [Ev.save true, Ev.finalize, Ev.finalize, Ev.closeBrowser], true) := by
  intro items
  induction items with
  | nil =>
      intro init _
      exact ⟨[], rfl⟩
  | cons x rest ih =>
      intro init h
      obtain ⟨id, o⟩ := x
      have ho : o ≠ Outcome.fatal := h (id, o) (List.mem_cons_self _ _)
      have hrest : ∀ y ∈ rest, y.2 ≠ Outcome.fatal :=
        fun y hy => h y (List.mem_cons_of_mem _ hy)
      cases o with
      | fatal => exact absurd rfl ho
      | exn =>
          obtain ⟨pre, hpre⟩ := ih init hrest
          exact ⟨Ev.logSkipped id "exception" :: pre, by
            show prependEv _ (runLoop freq init rest) = _
            rw [hpre]; rfl⟩
      | ok rows =>
          by_cases hrows : rows = []
          · obtain ⟨pre, hpre⟩ := ih init hrest
            refine ⟨Ev.logSkipped id "no_data" :: pre, ?_⟩
            show (if rows = [] then
                prependEv (Ev.logSkipped id "no_data") (runLoop freq init rest)
              else _) = _
            rw [if_pos hrows, hpre]
            rfl
          · obtain ⟨pre, hpre⟩ := ih (init + 1) hrest
            refine ⟨Ev.addData rows ::
              ((if (init + 1) % (2 * freq) = 0 then [Ev.save false] else []) ++ pre), ?_⟩
            show (if rows = [] then _
              else prependEvs
                (Ev.addData rows ::
                  (if (init + 1) % (2 * freq) = 0 then [Ev.save false] else []))
                (runLoop freq (init + 1) rest)) = _
            rw [if_neg hrows, hpre]
            unfold prependEvs
            simp [List.append_assoc]

theorem runLoop_fatal (freq : ℕ) :
    ∀ (items : List (ℤ × Outcome)) (init : ℕ),
      (∃ x ∈ items, x.2 = Outcome.fatal) →
      ∃ pre, runLoop freq init items = (pre ++ [Ev.finalize, Ev.closeBrowser], false)
        ∧ Ev.save true ∉ pre := by
  intro items
  induction items with
  | nil =>
      intro init h
      rcases h with ⟨x, hx, _⟩
      exact absurd hx (List.not_mem_nil x)
  | cons x rest ih =>
      intro init h
      obtain ⟨id, o⟩ := x
      cases o with
      | fatal =>
          exact ⟨[], rfl, by simp⟩
      | exn =>
          have hrest : ∃ y ∈ rest, y.2 = Outcome.fatal := by
            rcases h with ⟨y, hy, hfat⟩
            rcases List.mem_cons.mp hy with heq | hmem
            · rw [heq] at hfat; simp at hfat
            · exact ⟨y, hmem, hfat⟩
          obtain ⟨pre, hpre, hnotin⟩ := ih init hrest
          refine ⟨Ev.logSkipped id "exception" :: pre, ?_, ?_⟩
          · show prependEv _ (runLoop freq init rest) = _
            rw [hpre]; rfl
          · intro hmem
            rcases List.mem_cons.mp hmem with heq | hmem2
            · exact absurd heq (by simp)
            · exact hnotin hmem2
      | ok rows =>
          have hrest : ∃ y ∈ rest, y.2 = Outcome.fatal := by
            rcases h with ⟨y, hy, hfat⟩
            rcases List.mem_cons.mp hy with heq | hmem
            · rw [heq] at hfat; simp at hfat
            · exact ⟨y, hmem, hfat⟩
          by_cases hrows : rows = []
          · obtain ⟨pre, hpre, hnotin⟩ := ih init hrest
            refine ⟨Ev.logSkipped id "no_data" :: pre, ?_, ?_⟩
            · show (if rows = [] then
                  prependEv (Ev.logSkipped id "no_data") (runLoop freq init rest)
                else _) = _
              rw [if_pos hrows, hpre]
              rfl
            · intro hmem
              rcases List.mem_cons.mp hmem with heq | hmem2
              · exact absurd heq (by simp)
              · exact hnotin hmem2
          · obtain ⟨pre, hpre, hnotin⟩ := ih (init + 1) hrest
            refine ⟨Ev.addData rows ::
              ((if (init + 1) % (2 * freq) = 0 then [Ev.save false] else []) ++ pre),
              ?_, ?_⟩
            · show (if rows = [] then _
                else prependEvs
                  (Ev.addData rows ::
                    (if (init + 1) % (2 * freq) = 0 then [Ev.save false] else []))
                  (runLoop freq (init + 1) rest)) = _
              rw [if_neg hrows, hpre]
              unfold prependEvs
              simp [List.append_assoc]
            · intro hmem
              rcases List.mem_cons.mp hmem with heq | hmem2
              · exact absurd heq (by simp)
              · rcases List.mem_append.mp hmem2 with hmem3 | hmem3
                · by_cases hs : (init + 1) % (2 * freq) = 0
                  · rw [if_pos hs] at hmem3
                    rcases List.mem_cons.mp hmem3 with heq3 | hmem4
                    · exact absurd heq3 (by simp)
                    · exact absurd hmem4 (List.not_mem_nil _)
                  · rw [if_neg hs] at hmem3
                    exact absurd hmem3 (List.not_mem_nil _)
                · exact hnotin hmem3

/-- C5 counterexample: the claim says that on every loop exit — including an
interruption or unhandled non-`Exception` error — `finalize()` is invoked
and then a forced checkpoint save; but a run whose single item raises a
fatal error produces only `finalize` and browser close: no forced
checkpoint save occurs on that exit path (the `finally` block has none). -/
theorem claim_C5_counterexample :
    scrape_all 50 0 [((1 : ℤ), Outcome.fatal)]
      = ([Ev.finalize, Ev.closeBrowser], false)
    ∧ Ev.save true ∉ (scrape_all 50 0 [((1 : ℤ), Outcome.fatal)]).1 := by
  refine ⟨rfl, by decide⟩

/-- C5 (amended): on normal loop completion the exit sequence is a forced
checkpoint save followed by `finalize` (save before finalize, then the
`finally` block's second finalize and browser close); on exit via an
unhandled fatal error only `finalize` and the browser close run — no forced
checkpoint save happens anywhere in such a run. -/
theorem claim_C5 (freq init : ℕ) (items : List (ℤ × Outcome)) :
    ((∀ x ∈ items, x.2 ≠ Outcome.fatal) →
      ∃ pre, scrape_all freq init items
        = (pre ++ [Ev.save true, Ev.finalize, Ev.finalize, Ev.closeBrowser], true))
    ∧ ((∃ x ∈ items, x.2 = Outcome.fatal) →
      Ev.save true ∉ (scrape_all freq init items).1
      ∧ ∃ pre, scrape_all freq init items
          = (pre ++ [Ev.finalize, Ev.closeBrowser], false)) := by
  constructor
  · intro h
    exact runLoop_no_fatal freq items init h
  · intro h
    obtain ⟨pre, hpre, hnotin⟩ := runLoop_fatal freq items init h
    constructor
    · show Ev.save true ∉ (runLoop freq init items).1
      rw [hpre]
      intro hmem
      rcases List.mem_append.mp hmem with hmem2 | hmem2
      · exact hnotin hmem2
      · rcases List.mem_cons.mp hmem2 with heq | hmem3
        · exact absurd heq (by simp)
        · rcases List.mem_cons.mp hmem3 with heq | hmem4
          · exact absurd heq (by simp)
          · exact absurd hmem4 (List.not_mem_nil _)
    · exact ⟨pre, hpre⟩

/-- Witness for C5 on two concrete runs: one normal, one fatal. -/
theorem claim_C5_witness :
    ((∀ x ∈ [((1 : ℤ), Outcome.ok [[("food_name", PyVal.str "x")]])],
        x.2 ≠ Outcome.fatal) →
      ∃ pre, scrape_all 50 0 [((1 : ℤ), Outcome.ok [[("food_name", PyVal.str "x")]])]
        = (pre ++ [Ev.save true, Ev.finalize, Ev.finalize, Ev.closeBrowser], true))
    ∧ ((∃ x ∈ [((2 : ℤ), Outcome.fatal)], x.2 = Outcome.fatal) →
      Ev.save true ∉ (scrape_all 50 0 [((2 : ℤ), Outcome.fatal)]).1
      ∧ ∃ pre, scrape_all 50 0 [((2 : ℤ), Outcome.fatal)]
          = (pre ++ [Ev.finalize, Ev.closeBrowser], false)) :=
  ⟨(claim_C5 50 0 [((1 : ℤ), Outcome.ok [[("food_name", PyVal.str "x")]])]).1,
   (claim_C5 50 0 [((2 : ℤ), Outcome.fatal)]).2⟩

/-- Witness for C8 at a concrete accepted row. -/
theorem claim_C8_witness :
    PyVal.num 3 = PyVal.none ∨
      ∃ q : ℚ, PyVal.num 3 = PyVal.num q ∧
        ("calories" ≠ "measurement_value" → 0 ≤ q) :=
  claim_C8
    [[("food_name", PyVal.str "a"), ("measurement_unit", PyVal.str "g"),
      ("food_id", PyVal.num 2), ("calories", PyVal.num 3)]]
    [("food_name", PyVal.str "a"), ("measurement_unit", PyVal.str "g"),
     ("food_id", PyVal.num 2), ("calories", PyVal.num 3)]
    (by decide) "calories" (by decide) (PyVal.num 3) (by decide)

end Mankan
